import Mathlib

/-!
# Verification of the ETL transform stage

Shallow embedding of `src/transform.py`: data-quality cleansing
(`handle_data_quality`), the hiring rule (`apply_hiring_rule`), the five
dimension builders (`create_dim_candidate`, `create_dim_date`,
`create_dim_country`, `create_dim_seniority`, `create_dim_technology`),
the fact builder (`create_fact_table`) and the orchestrator
(`transform_data`).  Data frames are modelled as lists of rows; pandas
`drop_duplicates` (keep-first) is `dedupFirst`, `sort_values` is
`List.insertionSort` under the relevant order, `.map` over a series built
with `set_index` is a `List.find?` lookup, and a missing value (`NaN`)
is `Option.none`.
-/

/-- A calendar date, as held in the `Application Date` column after the
extract stage has parsed it to a date type. -/
structure Date where
  year : Nat
  month : Nat
  day : Nat
deriving DecidableEq, Repr

/-- Chronological order on dates: year, then month, then day. -/
def Date.le (a b : Date) : Prop :=
  a.year < b.year ∨
    (a.year = b.year ∧ (a.month < b.month ∨ (a.month = b.month ∧ a.day ≤ b.day)))

instance : DecidableRel Date.le := fun a b => by unfold Date.le; infer_instance

instance : IsTotal Date Date.le := ⟨fun a b => by unfold Date.le; omega⟩

instance : IsTrans Date Date.le := ⟨fun a b c => by unfold Date.le; omega⟩

/-- pandas `Series.dt.quarter`: the 1-indexed calendar quarter of a month. -/
def quarterOf (m : Nat) : Nat := (m + 2) / 3

/-- Zero-pad a number to two digits, as `strftime` does for `%m` and `%d`. -/
def pad2 (n : Nat) : String := if n < 10 then "0" ++ toString n else toString n

/-- Zero-pad a number to four digits, as `strftime` does for `%Y`. -/
def pad4 (n : Nat) : String :=
  if n < 10 then "000" ++ toString n
  else if n < 100 then "00" ++ toString n
  else if n < 1000 then "0" ++ toString n
  else toString n

/-- `strftime("%Y-%m-%d")` on a date. -/
def dateStr (d : Date) : String :=
  pad4 d.year ++ "-" ++ pad2 d.month ++ "-" ++ pad2 d.day

/-- Python `str.strip()`: remove leading and trailing whitespace from the
character list of a string. -/
def stripStr (s : String) : String :=
  ⟨((s.data.dropWhile Char.isWhitespace).reverse.dropWhile Char.isWhitespace).reverse⟩

/-- Code-point order on character lists, as Python compares strings. -/
def charListLeB : List Char → List Char → Bool
  | [], _ => true
  | _ :: _, [] => false
  | a :: as, b :: bs =>
    if a < b then true else if b < a then false else charListLeB as bs

/-- Lexicographic (code-point) order on strings, the order pandas
`sort_values` uses on text columns. -/
def strLe (s t : String) : Prop := charListLeB s.data t.data = true

instance : DecidableRel strLe := fun s t => by unfold strLe; infer_instance

/-- A fully validated row of the extracted data set, with the column set the
extract stage guarantees. -/
structure Row where
  firstName : String
  lastName : String
  email : String
  appDate : Date
  country : String
  yoe : Int
  seniority : String
  technology : String
  codeChallengeScore : Int
  techInterviewScore : Int
deriving DecidableEq, Repr

/-- A raw row in which any cell may be missing (`NaN`). -/
structure RawRow where
  firstName : Option String
  lastName : Option String
  email : Option String
  appDate : Option Date
  country : Option String
  yoe : Option Int
  seniority : Option String
  technology : Option String
  codeChallengeScore : Option Int
  techInterviewScore : Option Int
deriving DecidableEq, Repr

/-- A row with no missing cell; `none` when any cell is missing.  `dropna`
keeps exactly the rows on which this returns `some`. -/
def completeRow (r : RawRow) : Option Row :=
  match r.firstName, r.lastName, r.email, r.appDate, r.country, r.yoe,
      r.seniority, r.technology, r.codeChallengeScore, r.techInterviewScore with
  | some fn, some ln, some em, some ad, some co, some yo, some se, some te,
      some cc, some ti => some ⟨fn, ln, em, ad, co, yo, se, te, cc, ti⟩
  | _, _, _, _, _, _, _, _, _, _ => none

/-- Embed a complete row back into the raw-row type (every cell present). -/
def Row.toRaw (r : Row) : RawRow :=
  ⟨some r.firstName, some r.lastName, some r.email, some r.appDate,
    some r.country, some r.yoe, some r.seniority, some r.technology,
    some r.codeChallengeScore, some r.techInterviewScore⟩

/-- Strip whitespace from the six text columns of a row
(`transform.py` lines 52-55). -/
def stripRow (r : Row) : Row :=
  { r with
    firstName := stripStr r.firstName
    lastName := stripStr r.lastName
    email := stripStr r.email
    country := stripStr r.country
    seniority := stripStr r.seniority
    technology := stripStr r.technology }

/-- Strip whitespace from the six text columns of a raw row, ignoring
missing cells. -/
def stripRawRow (r : RawRow) : RawRow :=
  { r with
    firstName := r.firstName.map stripStr
    lastName := r.lastName.map stripStr
    email := r.email.map stripStr
    country := r.country.map stripStr
    seniority := r.seniority.map stripStr
    technology := r.technology.map stripStr }

/-- `handle_data_quality`: drop every row with a missing value, then strip
whitespace from the six text columns. -/
def handle_data_quality (df : List RawRow) : List Row :=
  (df.filterMap completeRow).map stripRow

/-- The hiring rule: 1 when both scores are at least 7, otherwise 0. -/
def hireFlag (cc ti : Int) : Nat := if 7 ≤ cc ∧ 7 ≤ ti then 1 else 0

/-- A row carrying the computed `is_hired` column. -/
structure HRow extends Row where
  is_hired : Nat
deriving DecidableEq, Repr

/-- `apply_hiring_rule`: add the `is_hired` column computed from the two
scores. -/
def apply_hiring_rule (df : List Row) : List HRow :=
  df.map (fun r => { toRow := r, is_hired := hireFlag r.codeChallengeScore r.techInterviewScore })

/-- Scan a list left to right, keeping each element not seen before and
recording what has been seen in `seen`. -/
def dedupFirstAux [DecidableEq α] (seen : List α) : List α → List α
  | [] => []
  | a :: l => if a ∈ seen then dedupFirstAux seen l else a :: dedupFirstAux (a :: seen) l

/-- pandas `drop_duplicates` with the default keep-first policy: keep the
first occurrence of each value, in order of first occurrence. -/
def dedupFirst [DecidableEq α] (l : List α) : List α := dedupFirstAux [] l

/-- Pair each list element with a key, counting up from `n`; with `n = 1`
this is the surrogate-key assignment `dim.index += 1`. -/
def withKeys (n : Nat) : List α → List (Nat × α)
  | [] => []
  | a :: l => (n, a) :: withKeys (n + 1) l

/-- One row of DIM_CANDIDATE. -/
structure DimCandidateRow where
  candidate_key : Nat
  first_name : String
  last_name : String
  email : String
deriving DecidableEq, Repr

/-- One row of DIM_DATE. -/
structure DimDateRow where
  date_key : Nat
  full_date : String
  year : Nat
  month : Nat
  quarter : Nat
deriving DecidableEq, Repr

/-- One row of DIM_COUNTRY. -/
structure DimCountryRow where
  country_key : Nat
  country_name : String
deriving DecidableEq, Repr

/-- One row of DIM_SENIORITY. -/
structure DimSeniorityRow where
  seniority_key : Nat
  seniority_level : String
deriving DecidableEq, Repr

/-- One row of DIM_TECHNOLOGY. -/
structure DimTechnologyRow where
  technology_key : Nat
  technology_name : String
deriving DecidableEq, Repr

/-- The natural key of the candidate dimension: the
(first name, last name, email) triple. -/
def candidateNaturalKey (r : HRow) : String × String × String :=
  (r.firstName, r.lastName, r.email)

/-- `create_dim_candidate`: deduplicate the name/email triples (keep-first
order, no sort) and assign surrogate keys from 1. -/
def create_dim_candidate (df : List HRow) : List DimCandidateRow :=
  (withKeys 1 (dedupFirst (df.map candidateNaturalKey))).map
    (fun p => ⟨p.1, p.2.1, p.2.2.1, p.2.2.2⟩)

/-- The unique application dates in ascending chronological order
(`drop_duplicates().sort_values()` on the date column). -/
def sortedUniqueDates (df : List HRow) : List Date :=
  List.insertionSort Date.le (dedupFirst (df.map (fun r => r.appDate)))

/-- `create_dim_date`: one row per unique date in ascending order, with
surrogate keys from 1 and derived year, month and quarter columns. -/
def create_dim_date (df : List HRow) : List DimDateRow :=
  (withKeys 1 (sortedUniqueDates df)).map
    (fun p => ⟨p.1, dateStr p.2, p.2.year, p.2.month, quarterOf p.2.month⟩)

/-- The unique values of the `Country` column in ascending lexicographic
order. -/
def sortedUniqueCountries (df : List HRow) : List String :=
  List.insertionSort strLe (dedupFirst (df.map (fun r => r.country)))

/-- `create_dim_country`: one row per unique country label, sorted, keys
from 1. -/
def create_dim_country (df : List HRow) : List DimCountryRow :=
  (withKeys 1 (sortedUniqueCountries df)).map (fun p => ⟨p.1, p.2⟩)

/-- The unique values of the `Seniority` column in ascending lexicographic
order. -/
def sortedUniqueSeniorities (df : List HRow) : List String :=
  List.insertionSort strLe (dedupFirst (df.map (fun r => r.seniority)))

/-- `create_dim_seniority`: one row per unique seniority label, sorted,
keys from 1. -/
def create_dim_seniority (df : List HRow) : List DimSeniorityRow :=
  (withKeys 1 (sortedUniqueSeniorities df)).map (fun p => ⟨p.1, p.2⟩)

/-- The unique values of the `Technology` column in ascending lexicographic
order. -/
def sortedUniqueTechnologies (df : List HRow) : List String :=
  List.insertionSort strLe (dedupFirst (df.map (fun r => r.technology)))

/-- `create_dim_technology`: one row per unique technology label, sorted,
keys from 1. -/
def create_dim_technology (df : List HRow) : List DimTechnologyRow :=
  (withKeys 1 (sortedUniqueTechnologies df)).map (fun p => ⟨p.1, p.2⟩)

/-- One row of FACT_APPLICATIONS; a foreign key is `none` when the
dimension lookup found no match (pandas maps an absent index entry to
`NaN`). -/
structure FactRow where
  application_id : Nat
  candidate_key : Option Nat
  date_key : Option Nat
  country_key : Option Nat
  seniority_key : Option Nat
  technology_key : Option Nat
  code_challenge_score : Int
  technical_interview_score : Int
  is_hired : Nat
deriving DecidableEq, Repr

/-- Look up a row's candidate surrogate key by its name/email triple. -/
def lookupCandidate (dim : List DimCandidateRow) (r : HRow) : Option Nat :=
  (dim.find? (fun c =>
      decide (c.first_name = r.firstName ∧ c.last_name = r.lastName ∧ c.email = r.email))).map
    (fun c => c.candidate_key)

/-- Look up a row's date surrogate key by the formatted date string. -/
def lookupDate (dim : List DimDateRow) (r : HRow) : Option Nat :=
  (dim.find? (fun c => decide (c.full_date = dateStr r.appDate))).map (fun c => c.date_key)

/-- Look up a row's country surrogate key by the country label. -/
def lookupCountry (dim : List DimCountryRow) (r : HRow) : Option Nat :=
  (dim.find? (fun c => decide (c.country_name = r.country))).map (fun c => c.country_key)

/-- Look up a row's seniority surrogate key by the seniority label. -/
def lookupSeniority (dim : List DimSeniorityRow) (r : HRow) : Option Nat :=
  (dim.find? (fun c => decide (c.seniority_level = r.seniority))).map (fun c => c.seniority_key)

/-- Look up a row's technology surrogate key by the technology label. -/
def lookupTechnology (dim : List DimTechnologyRow) (r : HRow) : Option Nat :=
  (dim.find? (fun c => decide (c.technology_name = r.technology))).map (fun c => c.technology_key)

/-- `create_fact_table`: one fact row per application row, in input order,
with `application_id` counting from 1, the five foreign keys resolved by
dimension lookup, and the two scores and hire flag carried over. -/
def create_fact_table (df : List HRow)
    (dim_candidate : List DimCandidateRow) (dim_date : List DimDateRow)
    (dim_country : List DimCountryRow) (dim_seniority : List DimSeniorityRow)
    (dim_technology : List DimTechnologyRow) : List FactRow :=
  (withKeys 1 df).map (fun p =>
    { application_id := p.1
      candidate_key := lookupCandidate dim_candidate p.2
      date_key := lookupDate dim_date p.2
      country_key := lookupCountry dim_country p.2
      seniority_key := lookupSeniority dim_seniority p.2
      technology_key := lookupTechnology dim_technology p.2
      code_challenge_score := p.2.codeChallengeScore
      technical_interview_score := p.2.techInterviewScore
      is_hired := p.2.is_hired })

/-- The per-column counts of unresolved (null) foreign keys that the
referential-integrity check reports (`transform.py` lines 207-215). -/
structure NullKeyCounts where
  candidate : Nat
  date : Nat
  country : Nat
  seniority : Nat
  technology : Nat
deriving DecidableEq, Repr

/-- Count the null foreign keys per column of the fact table. -/
def null_key_counts (fact : List FactRow) : NullKeyCounts :=
  ⟨fact.countP (fun f => f.candidate_key.isNone),
    fact.countP (fun f => f.date_key.isNone),
    fact.countP (fun f => f.country_key.isNone),
    fact.countP (fun f => f.seniority_key.isNone),
    fact.countP (fun f => f.technology_key.isNone)⟩

/-- The six tables `transform_data` returns. -/
structure Tables where
  dim_candidate : List DimCandidateRow
  dim_date : List DimDateRow
  dim_country : List DimCountryRow
  dim_seniority : List DimSeniorityRow
  dim_technology : List DimTechnologyRow
  fact_applications : List FactRow
deriving DecidableEq, Repr

/-- `transform_data`: cleanse, apply the hiring rule, build the five
dimensions, build the fact table. -/
def transform_data (df : List RawRow) : Tables :=
  let clean := apply_hiring_rule (handle_data_quality df)
  let dc := create_dim_candidate clean
  let dd := create_dim_date clean
  let dco := create_dim_country clean
  let ds := create_dim_seniority clean
  let dt := create_dim_technology clean
  ⟨dc, dd, dco, ds, dt, create_fact_table clean dc dd dco ds dt⟩

/-! ## Helper lemmas about `dedupFirst` and `withKeys` -/

theorem mem_dedupFirstAux [DecidableEq α] (a : α) :
    ∀ (l seen : List α), a ∈ dedupFirstAux seen l ↔ a ∈ l ∧ a ∉ seen
  | [], seen => by simp [dedupFirstAux]
  | b :: l, seen => by
    rw [dedupFirstAux]
    by_cases hb : b ∈ seen
    · rw [if_pos hb, mem_dedupFirstAux a l seen]
      constructor
      · exact fun ⟨h1, h2⟩ => ⟨List.mem_cons_of_mem _ h1, h2⟩
      · rintro ⟨h1, h2⟩
        rcases List.mem_cons.1 h1 with rfl | h1
        · exact absurd hb h2
        · exact ⟨h1, h2⟩
    · rw [if_neg hb]
      by_cases hab : a = b
      · subst hab
        simp [hb]
      · simp only [List.mem_cons, hab, false_or]
        rw [mem_dedupFirstAux a l (b :: seen)]
        simp [hab]

theorem mem_dedupFirst [DecidableEq α] (a : α) (l : List α) :
    a ∈ dedupFirst l ↔ a ∈ l := by
  rw [dedupFirst, mem_dedupFirstAux]
  simp

theorem nodup_dedupFirstAux [DecidableEq α] :
    ∀ (l seen : List α), (dedupFirstAux seen l).Nodup
  | [], _ => by simp [dedupFirstAux]
  | b :: l, seen => by
    rw [dedupFirstAux]
    by_cases hb : b ∈ seen
    · rw [if_pos hb]
      exact nodup_dedupFirstAux l seen
    · rw [if_neg hb]
      refine List.nodup_cons.2 ⟨?_, nodup_dedupFirstAux l (b :: seen)⟩
      rw [mem_dedupFirstAux]
      simp

theorem nodup_dedupFirst [DecidableEq α] (l : List α) : (dedupFirst l).Nodup :=
  nodup_dedupFirstAux l []

theorem dedupFirst_length_card [DecidableEq α] (l : List α) :
    (dedupFirst l).length = l.toFinset.card := by
  rw [← List.toFinset_card_of_nodup (nodup_dedupFirst l)]
  congr 1
  ext a
  simp [List.mem_toFinset, mem_dedupFirst]

theorem withKeys_length (n : Nat) : ∀ (l : List α), (withKeys n l).length = l.length
  | [] => rfl
  | _ :: l => by rw [withKeys]; simp [withKeys_length (n + 1) l]

theorem withKeys_map_fst (n : Nat) :
    ∀ (l : List α), (withKeys n l).map Prod.fst = List.range' n l.length
  | [] => rfl
  | a :: l => by
    rw [withKeys, List.length_cons, List.range'_succ]
    simp [withKeys_map_fst (n + 1) l]

theorem withKeys_map_snd (n : Nat) : ∀ (l : List α), (withKeys n l).map Prod.snd = l
  | [] => rfl
  | a :: l => by rw [withKeys]; simp [withKeys_map_snd (n + 1) l]

theorem mem_withKeys_of_mem (n : Nat) {a : α} :
    ∀ {l : List α}, a ∈ l → ∃ k, (k, a) ∈ withKeys n l
  | b :: l, h => by
    rcases List.mem_cons.1 h with h | h
    · exact ⟨n, by rw [withKeys, h]; exact List.mem_cons_self _ _⟩
    · rcases mem_withKeys_of_mem (n + 1) h with ⟨k, hk⟩
      exact ⟨k, by rw [withKeys]; exact List.mem_cons_of_mem _ hk⟩

theorem snd_mem_of_mem_withKeys {n : Nat} {p : Nat × α} :
    ∀ {l : List α}, p ∈ withKeys n l → p.2 ∈ l
  | b :: l, h => by
    rw [withKeys] at h
    rcases List.mem_cons.1 h with h | h
    · rw [h]; exact List.mem_cons_self _ _
    · exact List.mem_cons_of_mem _ (snd_mem_of_mem_withKeys h)

/-! ## Concrete sample data -/

/-- A sample row at the hiring boundary: both scores exactly 7. -/
def rowBoundary : Row :=
  ⟨"Ada", "Lovelace", "ada@example.com", ⟨2024, 1, 10⟩, "US", 3, "Junior", "Go", 7, 7⟩

/-- A sample row with scores (6, 10): one score below the threshold. -/
def rowBelow : Row :=
  ⟨"Carl", "Gauss", "carl@example.com", ⟨2024, 1, 11⟩, "DE", 5, "Senior", "Rust", 6, 10⟩

/-- `rowBoundary` with its computed hire flag. -/
def hrowBoundary : HRow := ⟨rowBoundary, 1⟩

/-! ## C1: the hiring rule -/

/-- C1: For every row, the computed hire flag is 1 iff both the
code-challenge score and the technical-interview score are ≥ 7 (inclusive
thresholds); in particular a row with scores (7, 7) is hired and a row with
scores (6, 10) is not. -/
theorem hiring_rule_iff_both_scores_ge_seven :
    (∀ (df : List Row) (r : HRow), r ∈ apply_hiring_rule df →
        (r.is_hired = 1 ↔ (7 ≤ r.codeChallengeScore ∧ 7 ≤ r.techInterviewScore)))
    ∧ (apply_hiring_rule [rowBoundary, rowBelow]).map (fun r => r.is_hired) = [1, 0] := by
  constructor
  · intro df r hr
    rcases List.mem_map.1 hr with ⟨r0, _, rfl⟩
    by_cases h : 7 ≤ r0.codeChallengeScore ∧ 7 ≤ r0.techInterviewScore
    · simp [hireFlag, h]
    · simp [hireFlag, h]
  · decide

/-- Witness for C1 at a concrete input: the boundary row (7, 7) is a member
of the rule's output and its flag satisfies the iff. -/
theorem hiring_rule_iff_both_scores_ge_seven_witness :
    (hrowBoundary ∈ apply_hiring_rule [rowBoundary, rowBelow])
    ∧ (hrowBoundary.is_hired = 1 ↔
        (7 ≤ hrowBoundary.codeChallengeScore ∧ 7 ≤ hrowBoundary.techInterviewScore)) :=
  ⟨by decide, hiring_rule_iff_both_scores_ge_seven.1 [rowBoundary, rowBelow] hrowBoundary (by decide)⟩

/-! ## C2: the cleanser on null-free data -/

theorem completeRow_toRaw {r : RawRow} {v : Row} (h : completeRow r = some v) :
    v.toRaw = r := by
  obtain ⟨f1, f2, f3, f4, f5, f6, f7, f8, f9, f10⟩ := r
  cases f1 <;> cases f2 <;> cases f3 <;> cases f4 <;> cases f5 <;> cases f6 <;>
    cases f7 <;> cases f8 <;> cases f9 <;> cases f10 <;>
    first
      | (obtain rfl := Option.some.inj h; rfl)
      | exact Option.noConfusion h

theorem filterMap_completeRow_length :
    ∀ (df : List RawRow), (∀ r ∈ df, (completeRow r).isSome) →
      (df.filterMap completeRow).length = df.length
  | [], _ => rfl
  | a :: l, h => by
    obtain ⟨v, hv⟩ := Option.isSome_iff_exists.1 (h a (List.mem_cons_self a l))
    rw [List.filterMap_cons_some hv, List.length_cons, List.length_cons,
      filterMap_completeRow_length l (fun r hr => h r (List.mem_cons_of_mem _ hr))]

theorem toRaw_stripRow (v : Row) : (stripRow v).toRaw = stripRawRow v.toRaw := rfl

theorem filterMap_completeRow_toRaw :
    ∀ (df : List RawRow), (∀ r ∈ df, (completeRow r).isSome) →
      (df.filterMap completeRow).map Row.toRaw = df
  | [], _ => rfl
  | a :: l, h => by
    obtain ⟨v, hv⟩ := Option.isSome_iff_exists.1 (h a (List.mem_cons_self a l))
    rw [List.filterMap_cons_some hv, List.map_cons, completeRow_toRaw hv,
      filterMap_completeRow_toRaw l (fun r hr => h r (List.mem_cons_of_mem _ hr))]

/-- C2 (amended): on an input with no missing values the cleanser keeps
every row (same row count) and returns the input with the six text columns
whitespace-trimmed; it is the identity exactly when the text columns carry
no leading or trailing whitespace. -/
theorem clean_preserves_nullfree_rows (df : List RawRow)
    (hc : ∀ r ∈ df, (completeRow r).isSome) :
    (handle_data_quality df).length = df.length
    ∧ (handle_data_quality df).map Row.toRaw = df.map stripRawRow
    ∧ (df.map stripRawRow = df → (handle_data_quality df).map Row.toRaw = df) := by
  have hmap : (handle_data_quality df).map Row.toRaw = df.map stripRawRow := by
    unfold handle_data_quality
    rw [List.map_map]
    have : Row.toRaw ∘ stripRow = stripRawRow ∘ Row.toRaw := by
      funext v
      exact toRaw_stripRow v
    rw [this, ← List.map_map, filterMap_completeRow_toRaw df hc]
  refine ⟨?_, hmap, fun hid => by rw [hmap, hid]⟩
  unfold handle_data_quality
  rw [List.length_map, filterMap_completeRow_length df hc]

/-- A null-free single-row input whose first name carries leading
whitespace. -/
def dfUntrimmed : List RawRow := [({ rowBoundary with firstName := " Ada" } : Row).toRaw]

/-- Counterexample to C2 as stated: on `dfUntrimmed` (no missing values)
the cleanser does not return the same content — it trims the text. -/
theorem clean_not_identity_on_nullfree_counterexample :
    (∀ r ∈ dfUntrimmed, (completeRow r).isSome)
    ∧ ¬ ((handle_data_quality dfUntrimmed).length = dfUntrimmed.length
          ∧ (handle_data_quality dfUntrimmed).map Row.toRaw = dfUntrimmed) := by
  decide

/-- Witness for the amended C2 at the concrete input `dfUntrimmed`. -/
theorem clean_preserves_nullfree_rows_witness :
    (∀ r ∈ dfUntrimmed, (completeRow r).isSome)
    ∧ ((handle_data_quality dfUntrimmed).length = dfUntrimmed.length
        ∧ (handle_data_quality dfUntrimmed).map Row.toRaw = dfUntrimmed.map stripRawRow
        ∧ (dfUntrimmed.map stripRawRow = dfUntrimmed →
            (handle_data_quality dfUntrimmed).map Row.toRaw = dfUntrimmed)) :=
  ⟨by decide, clean_preserves_nullfree_rows dfUntrimmed (by decide)⟩

/-! ## C3: dense surrogate keys in every dimension -/

theorem sortedUniqueDates_length (df : List HRow) :
    (sortedUniqueDates df).length = (df.map (fun r => r.appDate)).toFinset.card := by
  unfold sortedUniqueDates
  rw [(List.perm_insertionSort _ _).length_eq, dedupFirst_length_card]

theorem sortedUniqueCountries_length (df : List HRow) :
    (sortedUniqueCountries df).length = (df.map (fun r => r.country)).toFinset.card := by
  unfold sortedUniqueCountries
  rw [(List.perm_insertionSort _ _).length_eq, dedupFirst_length_card]

theorem sortedUniqueSeniorities_length (df : List HRow) :
    (sortedUniqueSeniorities df).length = (df.map (fun r => r.seniority)).toFinset.card := by
  unfold sortedUniqueSeniorities
  rw [(List.perm_insertionSort _ _).length_eq, dedupFirst_length_card]

theorem sortedUniqueTechnologies_length (df : List HRow) :
    (sortedUniqueTechnologies df).length = (df.map (fun r => r.technology)).toFinset.card := by
  unfold sortedUniqueTechnologies
  rw [(List.perm_insertionSort _ _).length_eq, dedupFirst_length_card]

/-- C3: In every one of the five dimensions, the surrogate keys are exactly
the dense sequence 1, ..., k, where k is the number of distinct natural
keys of that dimension — no duplicates and no gaps. -/
theorem dims_surrogate_keys_dense_from_one (df : List HRow) :
    (create_dim_candidate df).map (fun c => c.candidate_key)
      = List.range' 1 ((df.map candidateNaturalKey).toFinset.card)
    ∧ (create_dim_date df).map (fun d => d.date_key)
      = List.range' 1 ((df.map (fun r => r.appDate)).toFinset.card)
    ∧ (create_dim_country df).map (fun c => c.country_key)
      = List.range' 1 ((df.map (fun r => r.country)).toFinset.card)
    ∧ (create_dim_seniority df).map (fun s => s.seniority_key)
      = List.range' 1 ((df.map (fun r => r.seniority)).toFinset.card)
    ∧ (create_dim_technology df).map (fun t => t.technology_key)
      = List.range' 1 ((df.map (fun r => r.technology)).toFinset.card) := by
  refine ⟨?_, ?_, ?_, ?_, ?_⟩
  · rw [create_dim_candidate, List.map_map, ← dedupFirst_length_card]
    exact withKeys_map_fst 1 _
  · rw [create_dim_date, List.map_map, ← sortedUniqueDates_length]
    exact withKeys_map_fst 1 _
  · rw [create_dim_country, List.map_map, ← sortedUniqueCountries_length]
    exact withKeys_map_fst 1 _
  · rw [create_dim_seniority, List.map_map, ← sortedUniqueSeniorities_length]
    exact withKeys_map_fst 1 _
  · rw [create_dim_technology, List.map_map, ← sortedUniqueTechnologies_length]
    exact withKeys_map_fst 1 _

/-- A concrete two-row cleansed data set used by several witnesses. -/
def sampleHRows : List HRow := apply_hiring_rule [rowBoundary, rowBelow]

/-- Witness for C3 at the concrete data set `sampleHRows`. -/
theorem dims_surrogate_keys_dense_from_one_witness :
    (create_dim_candidate sampleHRows).map (fun c => c.candidate_key)
      = List.range' 1 ((sampleHRows.map candidateNaturalKey).toFinset.card) :=
  (dims_surrogate_keys_dense_from_one sampleHRows).1

/-! ## C5: the fact builder keeps every row, in order -/

theorem withKeys_map_comp_snd (n : Nat) (l : List α) (f : α → β) :
    (withKeys n l).map (fun p => f p.2) = l.map f := by
  have h : (fun p : Nat × α => f p.2) = f ∘ Prod.snd := rfl
  rw [h, ← List.map_map, withKeys_map_snd]

theorem withKeys_countP_snd (n : Nat) (q : α → Bool) :
    ∀ (l : List α), (withKeys n l).countP (fun p => q p.2) = l.countP q
  | [] => rfl
  | a :: l => by
    rw [withKeys]
    simp [List.countP_cons, withKeys_countP_snd (n + 1) q l]

/-- C5: The fact builder returns exactly one fact row per input row (no row
silently dropped), assigns `application_id` as the dense sequence 1..N in
input row order, and carries the two raw scores and the hire flag unchanged
from each source row into the corresponding fact row. -/
theorem fact_rows_complete_and_ordered (df : List HRow) (dc : List DimCandidateRow)
    (dd : List DimDateRow) (dco : List DimCountryRow) (ds : List DimSeniorityRow)
    (dt : List DimTechnologyRow) :
    (create_fact_table df dc dd dco ds dt).length = df.length
    ∧ (create_fact_table df dc dd dco ds dt).map (fun f => f.application_id)
        = List.range' 1 df.length
    ∧ (create_fact_table df dc dd dco ds dt).map (fun f => f.code_challenge_score)
        = df.map (fun r => r.codeChallengeScore)
    ∧ (create_fact_table df dc dd dco ds dt).map (fun f => f.technical_interview_score)
        = df.map (fun r => r.techInterviewScore)
    ∧ (create_fact_table df dc dd dco ds dt).map (fun f => f.is_hired)
        = df.map (fun r => r.is_hired) := by
  refine ⟨?_, ?_, ?_, ?_, ?_⟩
  · rw [create_fact_table, List.length_map, withKeys_length]
  · rw [create_fact_table, List.map_map]
    exact withKeys_map_fst 1 df
  · rw [create_fact_table, List.map_map]
    exact withKeys_map_comp_snd 1 df (fun r => r.codeChallengeScore)
  · rw [create_fact_table, List.map_map]
    exact withKeys_map_comp_snd 1 df (fun r => r.techInterviewScore)
  · rw [create_fact_table, List.map_map]
    exact withKeys_map_comp_snd 1 df (fun r => r.is_hired)

/-- Witness for C5 at the concrete data set `sampleHRows`. -/
theorem fact_rows_complete_and_ordered_witness :
    (create_fact_table sampleHRows (create_dim_candidate sampleHRows)
        (create_dim_date sampleHRows) (create_dim_country sampleHRows)
        (create_dim_seniority sampleHRows) (create_dim_technology sampleHRows)).length
      = sampleHRows.length :=
  (fact_rows_complete_and_ordered sampleHRows (create_dim_candidate sampleHRows)
    (create_dim_date sampleHRows) (create_dim_country sampleHRows)
    (create_dim_seniority sampleHRows) (create_dim_technology sampleHRows)).1

/-! ## C8: failed lookups are kept as null keys and reported -/

theorem lookupCandidate_eq_none_iff (dim : List DimCandidateRow) (r : HRow) :
    lookupCandidate dim r = none ↔
      ∀ c ∈ dim,
        ¬(c.first_name = r.firstName ∧ c.last_name = r.lastName ∧ c.email = r.email) := by
  simp [lookupCandidate, List.find?_eq_none]

theorem lookupDate_eq_none_iff (dim : List DimDateRow) (r : HRow) :
    lookupDate dim r = none ↔ ∀ d ∈ dim, ¬(d.full_date = dateStr r.appDate) := by
  simp [lookupDate, List.find?_eq_none]

theorem lookupCountry_eq_none_iff (dim : List DimCountryRow) (r : HRow) :
    lookupCountry dim r = none ↔ ∀ c ∈ dim, ¬(c.country_name = r.country) := by
  simp [lookupCountry, List.find?_eq_none]

theorem lookupSeniority_eq_none_iff (dim : List DimSeniorityRow) (r : HRow) :
    lookupSeniority dim r = none ↔ ∀ s ∈ dim, ¬(s.seniority_level = r.seniority) := by
  simp [lookupSeniority, List.find?_eq_none]

theorem lookupTechnology_eq_none_iff (dim : List DimTechnologyRow) (r : HRow) :
    lookupTechnology dim r = none ↔ ∀ t ∈ dim, ¬(t.technology_name = r.technology) := by
  simp [lookupTechnology, List.find?_eq_none]

/-- C8: For every input to the fact builder — dimensions arbitrary, so a
lookup may fail — the operation is total, drops no row, leaves an
unresolvable foreign key as null (a key is null exactly when no dimension
row matches the natural key), and the per-column counts of unresolved keys
are computed for the report, never silently discarded. -/
theorem fact_build_reports_unresolved_keys (df : List HRow) (dc : List DimCandidateRow)
    (dd : List DimDateRow) (dco : List DimCountryRow) (ds : List DimSeniorityRow)
    (dt : List DimTechnologyRow) :
    (create_fact_table df dc dd dco ds dt).length = df.length
    ∧ (create_fact_table df dc dd dco ds dt).map (fun f => f.candidate_key)
        = df.map (fun r => lookupCandidate dc r)
    ∧ (create_fact_table df dc dd dco ds dt).map (fun f => f.date_key)
        = df.map (fun r => lookupDate dd r)
    ∧ (create_fact_table df dc dd dco ds dt).map (fun f => f.country_key)
        = df.map (fun r => lookupCountry dco r)
    ∧ (create_fact_table df dc dd dco ds dt).map (fun f => f.seniority_key)
        = df.map (fun r => lookupSeniority ds r)
    ∧ (create_fact_table df dc dd dco ds dt).map (fun f => f.technology_key)
        = df.map (fun r => lookupTechnology dt r)
    ∧ (∀ r : HRow, lookupCandidate dc r = none ↔
        ∀ c ∈ dc,
          ¬(c.first_name = r.firstName ∧ c.last_name = r.lastName ∧ c.email = r.email))
    ∧ null_key_counts (create_fact_table df dc dd dco ds dt)
        = ⟨df.countP (fun r => (lookupCandidate dc r).isNone),
            df.countP (fun r => (lookupDate dd r).isNone),
            df.countP (fun r => (lookupCountry dco r).isNone),
            df.countP (fun r => (lookupSeniority ds r).isNone),
            df.countP (fun r => (lookupTechnology dt r).isNone)⟩ := by
  refine ⟨?_, ?_, ?_, ?_, ?_, ?_, fun r => lookupCandidate_eq_none_iff dc r, ?_⟩
  · rw [create_fact_table, List.length_map, withKeys_length]
  · rw [create_fact_table, List.map_map]
    exact withKeys_map_comp_snd 1 df (fun r => lookupCandidate dc r)
  · rw [create_fact_table, List.map_map]
    exact withKeys_map_comp_snd 1 df (fun r => lookupDate dd r)
  · rw [create_fact_table, List.map_map]
    exact withKeys_map_comp_snd 1 df (fun r => lookupCountry dco r)
  · rw [create_fact_table, List.map_map]
    exact withKeys_map_comp_snd 1 df (fun r => lookupSeniority ds r)
  · rw [create_fact_table, List.map_map]
    exact withKeys_map_comp_snd 1 df (fun r => lookupTechnology dt r)
  · rw [create_fact_table, null_key_counts]
    simp only [NullKeyCounts.mk.injEq]
    refine ⟨?_, ?_, ?_, ?_, ?_⟩
    · rw [List.countP_map]
      exact withKeys_countP_snd 1 (fun r => (lookupCandidate dc r).isNone) df
    · rw [List.countP_map]
      exact withKeys_countP_snd 1 (fun r => (lookupDate dd r).isNone) df
    · rw [List.countP_map]
      exact withKeys_countP_snd 1 (fun r => (lookupCountry dco r).isNone) df
    · rw [List.countP_map]
      exact withKeys_countP_snd 1 (fun r => (lookupSeniority ds r).isNone) df
    · rw [List.countP_map]
      exact withKeys_countP_snd 1 (fun r => (lookupTechnology dt r).isNone) df

/-- Witness for C8 at a concrete input with empty dimensions, where every
lookup fails: the reported counts equal the per-column failure counts. -/
theorem fact_build_reports_unresolved_keys_witness :
    null_key_counts (create_fact_table sampleHRows [] [] [] [] [])
      = ⟨sampleHRows.countP (fun r => (lookupCandidate [] r).isNone),
          sampleHRows.countP (fun r => (lookupDate [] r).isNone),
          sampleHRows.countP (fun r => (lookupCountry [] r).isNone),
          sampleHRows.countP (fun r => (lookupSeniority [] r).isNone),
          sampleHRows.countP (fun r => (lookupTechnology [] r).isNone)⟩ :=
  (fact_build_reports_unresolved_keys sampleHRows [] [] [] [] []).2.2.2.2.2.2.2

/-! ## C4: referential integrity when built end-to-end -/

theorem lookupCandidate_resolves {df : List HRow} {r : HRow} (hr : r ∈ df) :
    ∃ c ∈ create_dim_candidate df,
      lookupCandidate (create_dim_candidate df) r = some c.candidate_key := by
  have htrip : candidateNaturalKey r ∈ dedupFirst (df.map candidateNaturalKey) :=
    (mem_dedupFirst _ _).2 (List.mem_map_of_mem _ hr)
  obtain ⟨k, hk⟩ := mem_withKeys_of_mem 1 htrip
  have hdim : ∃ c ∈ create_dim_candidate df,
      (fun c => decide (c.first_name = r.firstName ∧ c.last_name = r.lastName ∧
        c.email = r.email)) c = true := by
    refine ⟨⟨k, r.firstName, r.lastName, r.email⟩, ?_, by simp⟩
    exact List.mem_map_of_mem _ hk
  obtain ⟨c, hfind⟩ := Option.isSome_iff_exists.1 (List.find?_isSome.2 hdim)
  exact ⟨c, List.mem_of_find?_eq_some hfind, by unfold lookupCandidate; rw [hfind]; rfl⟩

theorem lookupDate_resolves {df : List HRow} {r : HRow} (hr : r ∈ df) :
    ∃ d ∈ create_dim_date df,
      lookupDate (create_dim_date df) r = some d.date_key := by
  have hmem : r.appDate ∈ sortedUniqueDates df := by
    unfold sortedUniqueDates
    rw [(List.perm_insertionSort _ _).mem_iff, mem_dedupFirst]
    exact List.mem_map_of_mem _ hr
  obtain ⟨k, hk⟩ := mem_withKeys_of_mem 1 hmem
  have hdim : ∃ d ∈ create_dim_date df,
      (fun d => decide (d.full_date = dateStr r.appDate)) d = true := by
    refine ⟨⟨k, dateStr r.appDate, r.appDate.year, r.appDate.month,
      quarterOf r.appDate.month⟩, ?_, by simp⟩
    exact List.mem_map_of_mem _ hk
  obtain ⟨d, hfind⟩ := Option.isSome_iff_exists.1 (List.find?_isSome.2 hdim)
  exact ⟨d, List.mem_of_find?_eq_some hfind, by unfold lookupDate; rw [hfind]; rfl⟩

theorem lookupCountry_resolves {df : List HRow} {r : HRow} (hr : r ∈ df) :
    ∃ c ∈ create_dim_country df,
      lookupCountry (create_dim_country df) r = some c.country_key := by
  have hmem : r.country ∈ sortedUniqueCountries df := by
    unfold sortedUniqueCountries
    rw [(List.perm_insertionSort _ _).mem_iff, mem_dedupFirst]
    exact List.mem_map_of_mem _ hr
  obtain ⟨k, hk⟩ := mem_withKeys_of_mem 1 hmem
  have hdim : ∃ c ∈ create_dim_country df,
      (fun c => decide (c.country_name = r.country)) c = true := by
    refine ⟨⟨k, r.country⟩, ?_, by simp⟩
    exact List.mem_map_of_mem _ hk
  obtain ⟨c, hfind⟩ := Option.isSome_iff_exists.1 (List.find?_isSome.2 hdim)
  exact ⟨c, List.mem_of_find?_eq_some hfind, by unfold lookupCountry; rw [hfind]; rfl⟩

theorem lookupSeniority_resolves {df : List HRow} {r : HRow} (hr : r ∈ df) :
    ∃ s ∈ create_dim_seniority df,
      lookupSeniority (create_dim_seniority df) r = some s.seniority_key := by
  have hmem : r.seniority ∈ sortedUniqueSeniorities df := by
    unfold sortedUniqueSeniorities
    rw [(List.perm_insertionSort _ _).mem_iff, mem_dedupFirst]
    exact List.mem_map_of_mem _ hr
  obtain ⟨k, hk⟩ := mem_withKeys_of_mem 1 hmem
  have hdim : ∃ s ∈ create_dim_seniority df,
      (fun s => decide (s.seniority_level = r.seniority)) s = true := by
    refine ⟨⟨k, r.seniority⟩, ?_, by simp⟩
    exact List.mem_map_of_mem _ hk
  obtain ⟨s, hfind⟩ := Option.isSome_iff_exists.1 (List.find?_isSome.2 hdim)
  exact ⟨s, List.mem_of_find?_eq_some hfind, by unfold lookupSeniority; rw [hfind]; rfl⟩

theorem lookupTechnology_resolves {df : List HRow} {r : HRow} (hr : r ∈ df) :
    ∃ t ∈ create_dim_technology df,
      lookupTechnology (create_dim_technology df) r = some t.technology_key := by
  have hmem : r.technology ∈ sortedUniqueTechnologies df := by
    unfold sortedUniqueTechnologies
    rw [(List.perm_insertionSort _ _).mem_iff, mem_dedupFirst]
    exact List.mem_map_of_mem _ hr
  obtain ⟨k, hk⟩ := mem_withKeys_of_mem 1 hmem
  have hdim : ∃ t ∈ create_dim_technology df,
      (fun t => decide (t.technology_name = r.technology)) t = true := by
    refine ⟨⟨k, r.technology⟩, ?_, by simp⟩
    exact List.mem_map_of_mem _ hk
  obtain ⟨t, hfind⟩ := Option.isSome_iff_exists.1 (List.find?_isSome.2 hdim)
  exact ⟨t, List.mem_of_find?_eq_some hfind, by unfold lookupTechnology; rw [hfind]; rfl⟩

/-- C4: When the fact table is built from the same cleansed row set as the
five dimensions (end-to-end consistency), every foreign key of every fact
row is the surrogate key of an existing row of the corresponding dimension;
no foreign key is left unresolved. -/
theorem fact_foreign_keys_resolve (df : List HRow) {f : FactRow}
    (hf : f ∈ create_fact_table df (create_dim_candidate df) (create_dim_date df)
      (create_dim_country df) (create_dim_seniority df) (create_dim_technology df)) :
    (∃ c ∈ create_dim_candidate df, f.candidate_key = some c.candidate_key)
    ∧ (∃ d ∈ create_dim_date df, f.date_key = some d.date_key)
    ∧ (∃ c ∈ create_dim_country df, f.country_key = some c.country_key)
    ∧ (∃ s ∈ create_dim_seniority df, f.seniority_key = some s.seniority_key)
    ∧ (∃ t ∈ create_dim_technology df, f.technology_key = some t.technology_key) := by
  rw [create_fact_table] at hf
  rcases List.mem_map.1 hf with ⟨p, hp, rfl⟩
  have hr : p.2 ∈ df := snd_mem_of_mem_withKeys hp
  exact ⟨lookupCandidate_resolves hr, lookupDate_resolves hr, lookupCountry_resolves hr,
    lookupSeniority_resolves hr, lookupTechnology_resolves hr⟩

/-- The first fact row produced end-to-end from `sampleHRows`. -/
def sampleFactRow : FactRow := ⟨1, some 1, some 1, some 2, some 1, some 1, 7, 7, 1⟩

/-- Witness for C4 at the concrete data set `sampleHRows`: its first fact
row is in the end-to-end fact table and its candidate key resolves. -/
theorem fact_foreign_keys_resolve_witness :
    (sampleFactRow ∈ create_fact_table sampleHRows (create_dim_candidate sampleHRows)
        (create_dim_date sampleHRows) (create_dim_country sampleHRows)
        (create_dim_seniority sampleHRows) (create_dim_technology sampleHRows))
    ∧ (∃ c ∈ create_dim_candidate sampleHRows,
        sampleFactRow.candidate_key = some c.candidate_key) :=
  ⟨by decide, (fact_foreign_keys_resolve sampleHRows (by decide)).1⟩

/-! ## C6: the date dimension -/

/-- C6: The date dimension holds one row per distinct application date; the
underlying date list is duplicate-free, covers exactly the distinct input
dates, and is in ascending chronological order; surrogate keys are 1..k in
that order; each row carries the date's year and month and its 1-indexed
quarter (January-March is 1, ..., October-December is 4). -/
theorem dim_date_chronological_with_derived_attributes (df : List HRow) :
    (sortedUniqueDates df).Nodup
    ∧ (∀ d : Date, d ∈ sortedUniqueDates df ↔ d ∈ df.map (fun r => r.appDate))
    ∧ List.Sorted Date.le (sortedUniqueDates df)
    ∧ (create_dim_date df).map (fun x => x.date_key)
        = List.range' 1 (sortedUniqueDates df).length
    ∧ (create_dim_date df).map (fun x => x.full_date)
        = (sortedUniqueDates df).map dateStr
    ∧ (create_dim_date df).map (fun x => x.year)
        = (sortedUniqueDates df).map (fun d => d.year)
    ∧ (create_dim_date df).map (fun x => x.month)
        = (sortedUniqueDates df).map (fun d => d.month)
    ∧ (create_dim_date df).map (fun x => x.quarter)
        = (sortedUniqueDates df).map (fun d => quarterOf d.month)
    ∧ (List.range' 1 12).map quarterOf = [1, 1, 1, 2, 2, 2, 3, 3, 3, 4, 4, 4] := by
  refine ⟨?_, ?_, ?_, ?_, ?_, ?_, ?_, ?_, by decide⟩
  · exact ((List.perm_insertionSort _ _).nodup_iff).2 (nodup_dedupFirst _)
  · intro d
    unfold sortedUniqueDates
    rw [(List.perm_insertionSort _ _).mem_iff, mem_dedupFirst]
  · exact List.sorted_insertionSort Date.le _
  · rw [create_dim_date, List.map_map]
    exact withKeys_map_fst 1 _
  · rw [create_dim_date, List.map_map]
    exact withKeys_map_comp_snd 1 (sortedUniqueDates df) dateStr
  · rw [create_dim_date, List.map_map]
    exact withKeys_map_comp_snd 1 (sortedUniqueDates df) (fun d => d.year)
  · rw [create_dim_date, List.map_map]
    exact withKeys_map_comp_snd 1 (sortedUniqueDates df) (fun d => d.month)
  · rw [create_dim_date, List.map_map]
    exact withKeys_map_comp_snd 1 (sortedUniqueDates df) (fun d => quarterOf d.month)

/-- Witness for C6 at the concrete data set `sampleHRows`. -/
theorem dim_date_chronological_with_derived_attributes_witness :
    List.Sorted Date.le (sortedUniqueDates sampleHRows) :=
  (dim_date_chronological_with_derived_attributes sampleHRows).2.2.1

/-! ## C7: the label dimensions are sorted lexicographically -/

theorem charListLeB_total : ∀ (a b : List Char),
    charListLeB a b = true ∨ charListLeB b a = true
  | [], _ => Or.inl rfl
  | _ :: _, [] => Or.inr rfl
  | a :: as, b :: bs => by
    rcases lt_trichotomy a b with h | h | h
    · left
      simp [charListLeB, h]
    · subst h
      simpa [charListLeB, lt_irrefl] using charListLeB_total as bs
    · right
      simp [charListLeB, h]

theorem charListLeB_trans : ∀ (a b c : List Char),
    charListLeB a b = true → charListLeB b c = true → charListLeB a c = true
  | [], _, _ => fun _ _ => rfl
  | a :: as, [], _ => by simp [charListLeB]
  | a :: as, b :: bs, [] => by simp [charListLeB]
  | a :: as, b :: bs, c :: cs => by
    intro hab hbc
    rcases lt_trichotomy a b with h1 | h1 | h1
    · rcases lt_trichotomy b c with h2 | h2 | h2
      · simp [charListLeB, lt_trans h1 h2]
      · subst h2
        simp [charListLeB, h1]
      · rw [charListLeB, if_neg (asymm h2), if_pos h2] at hbc
        exact absurd hbc (by simp)
    · subst h1
      rcases lt_trichotomy a c with h2 | h2 | h2
      · simp [charListLeB, h2]
      · subst h2
        rw [charListLeB, if_neg (lt_irrefl a), if_neg (lt_irrefl a)] at hab hbc ⊢
        exact charListLeB_trans as bs cs hab hbc
      · rw [charListLeB, if_neg (asymm h2), if_pos h2] at hbc
        exact absurd hbc (by simp)
    · rw [charListLeB, if_neg (asymm h1), if_pos h1] at hab
      exact absurd hab (by simp)

instance : IsTotal String strLe := ⟨fun s t => charListLeB_total s.data t.data⟩

instance : IsTrans String strLe := ⟨fun s t u => charListLeB_trans s.data t.data u.data⟩

/-- C7: Each of the country, seniority and technology dimensions holds one
row per distinct label: the underlying label list is duplicate-free, covers
exactly the distinct input labels, and is in ascending lexicographic order;
surrogate keys are assigned as 1..k in that (alphabetical, not input)
order. -/
theorem label_dims_sorted_lexicographic (df : List HRow) :
    ((sortedUniqueCountries df).Nodup
      ∧ (∀ s : String, s ∈ sortedUniqueCountries df ↔ s ∈ df.map (fun r => r.country))
      ∧ List.Sorted strLe (sortedUniqueCountries df)
      ∧ (create_dim_country df).map (fun x => x.country_name) = sortedUniqueCountries df
      ∧ (create_dim_country df).map (fun x => x.country_key)
          = List.range' 1 (sortedUniqueCountries df).length)
    ∧ ((sortedUniqueSeniorities df).Nodup
      ∧ (∀ s : String, s ∈ sortedUniqueSeniorities df ↔ s ∈ df.map (fun r => r.seniority))
      ∧ List.Sorted strLe (sortedUniqueSeniorities df)
      ∧ (create_dim_seniority df).map (fun x => x.seniority_level) = sortedUniqueSeniorities df
      ∧ (create_dim_seniority df).map (fun x => x.seniority_key)
          = List.range' 1 (sortedUniqueSeniorities df).length)
    ∧ ((sortedUniqueTechnologies df).Nodup
      ∧ (∀ s : String, s ∈ sortedUniqueTechnologies df ↔ s ∈ df.map (fun r => r.technology))
      ∧ List.Sorted strLe (sortedUniqueTechnologies df)
      ∧ (create_dim_technology df).map (fun x => x.technology_name) = sortedUniqueTechnologies df
      ∧ (create_dim_technology df).map (fun x => x.technology_key)
          = List.range' 1 (sortedUniqueTechnologies df).length) := by
  refine ⟨⟨?_, ?_, ?_, ?_, ?_⟩, ⟨?_, ?_, ?_, ?_, ?_⟩, ⟨?_, ?_, ?_, ?_, ?_⟩⟩
  · exact ((List.perm_insertionSort _ _).nodup_iff).2 (nodup_dedupFirst _)
  · intro s
    unfold sortedUniqueCountries
    rw [(List.perm_insertionSort _ _).mem_iff, mem_dedupFirst]
  · exact List.sorted_insertionSort strLe _
  · rw [create_dim_country, List.map_map]
    exact withKeys_map_snd 1 _
  · rw [create_dim_country, List.map_map]
    exact withKeys_map_fst 1 _
  · exact ((List.perm_insertionSort _ _).nodup_iff).2 (nodup_dedupFirst _)
  · intro s
    unfold sortedUniqueSeniorities
    rw [(List.perm_insertionSort _ _).mem_iff, mem_dedupFirst]
  · exact List.sorted_insertionSort strLe _
  · rw [create_dim_seniority, List.map_map]
    exact withKeys_map_snd 1 _
  · rw [create_dim_seniority, List.map_map]
    exact withKeys_map_fst 1 _
  · exact ((List.perm_insertionSort _ _).nodup_iff).2 (nodup_dedupFirst _)
  · intro s
    unfold sortedUniqueTechnologies
    rw [(List.perm_insertionSort _ _).mem_iff, mem_dedupFirst]
  · exact List.sorted_insertionSort strLe _
  · rw [create_dim_technology, List.map_map]
    exact withKeys_map_snd 1 _
  · rw [create_dim_technology, List.map_map]
    exact withKeys_map_fst 1 _

/-- Witness for C7 at the concrete data set `sampleHRows`. -/
theorem label_dims_sorted_lexicographic_witness :
    (create_dim_country sampleHRows).map (fun x => x.country_name)
      = sortedUniqueCountries sampleHRows :=
  (label_dims_sorted_lexicographic sampleHRows).1.2.2.2.1

/-! ## C9: the transform is a deterministic pure function -/

/-- C9: Two runs of the full transform (cleanse, rule application, the five
dimension builds, fact build) on the same input row set produce identical
dimension tables and fact tables. -/
theorem transform_data_deterministic (df₁ df₂ : List RawRow) (h : df₁ = df₂) :
    transform_data df₁ = transform_data df₂ := by
  rw [h]

/-- Witness for C9 at the concrete input `dfUntrimmed`. -/
theorem transform_data_deterministic_witness :
    transform_data dfUntrimmed = transform_data dfUntrimmed :=
  transform_data_deterministic dfUntrimmed dfUntrimmed rfl

/-! ## C10: candidate keys follow first-occurrence order -/

/-- Modelled from the spec: the "first-occurrence order" the spec
recommends for the candidate dimension — scan the rows left to right and
append each natural key the first time it is seen. -/
def firstOccurrenceScan [DecidableEq α] (l : List α) : List α :=
  l.foldl (fun acc a => if a ∈ acc then acc else acc ++ [a]) []

theorem dedupFirstAux_congr [DecidableEq α] :
    ∀ (l s₁ s₂ : List α), (∀ x, x ∈ s₁ ↔ x ∈ s₂) →
      dedupFirstAux s₁ l = dedupFirstAux s₂ l
  | [], _, _, _ => rfl
  | a :: l, s₁, s₂, h => by
    rw [dedupFirstAux, dedupFirstAux]
    by_cases ha : a ∈ s₁
    · rw [if_pos ha, if_pos ((h a).1 ha)]
      exact dedupFirstAux_congr l s₁ s₂ h
    · rw [if_neg ha, if_neg (fun hb => ha ((h a).2 hb))]
      refine congrArg (List.cons a) (dedupFirstAux_congr l (a :: s₁) (a :: s₂) ?_)
      intro x
      simp [h x]

theorem foldl_scan_eq_dedupFirstAux [DecidableEq α] :
    ∀ (l acc : List α),
      l.foldl (fun acc a => if a ∈ acc then acc else acc ++ [a]) acc
        = acc ++ dedupFirstAux acc l
  | [], acc => by simp [dedupFirstAux]
  | a :: l, acc => by
    rw [List.foldl_cons, dedupFirstAux]
    by_cases ha : a ∈ acc
    · rw [if_pos ha, if_pos ha]
      exact foldl_scan_eq_dedupFirstAux l acc
    · rw [if_neg ha, if_neg ha, foldl_scan_eq_dedupFirstAux l (acc ++ [a]),
        dedupFirstAux_congr l (acc ++ [a]) (a :: acc) (by intro x; simp [or_comm])]
      simp

theorem firstOccurrenceScan_eq_dedupFirst [DecidableEq α] (l : List α) :
    firstOccurrenceScan l = dedupFirst l := by
  unfold firstOccurrenceScan dedupFirst
  rw [foldl_scan_eq_dedupFirstAux l []]
  simp

/-- C10: The candidate dimension assigns surrogate keys 1..k to the
distinct (first name, last name, email) triples in order of each triple's
first occurrence in the input rows: the keep-first deduplication of the
code coincides with the spec's first-occurrence scan, and no sort is
applied. -/
theorem dim_candidate_first_occurrence_order (df : List HRow) :
    (create_dim_candidate df).map (fun c => (c.first_name, c.last_name, c.email))
      = firstOccurrenceScan (df.map candidateNaturalKey)
    ∧ (create_dim_candidate df).map (fun c => c.candidate_key)
      = List.range' 1 (firstOccurrenceScan (df.map candidateNaturalKey)).length := by
  rw [firstOccurrenceScan_eq_dedupFirst]
  constructor
  · rw [create_dim_candidate, List.map_map]
    exact withKeys_map_snd 1 _
  · rw [create_dim_candidate, List.map_map]
    exact withKeys_map_fst 1 _

/-- Witness for C10 at the concrete data set `sampleHRows`. -/
theorem dim_candidate_first_occurrence_order_witness :
    (create_dim_candidate sampleHRows).map (fun c => (c.first_name, c.last_name, c.email))
      = firstOccurrenceScan (sampleHRows.map candidateNaturalKey) :=
  (dim_candidate_first_occurrence_order sampleHRows).1
